import Mathlib

/-!
Verification of the sync/reconciliation core of the `cn` CLI
(Confluence-space-to-markdown mirror).

The development shallowly embeds the relevant program parts:

* the push command's version-conflict and size checks
  (`updateExistingPage`, `createNewPage` in the push command source);
* the Diff Engine `computeDiff` (modelled from the spec, §4.3, and its
  tests, since `sync-engine.ts` is not among the available sources);
* the duplicate-detector ranking (`findBestDuplicate` in the health-check
  source);
* the Page State Cache builder (`buildPageStateFromFiles`, modelled from
  the spec §4.1 and its tests, since `page-state.ts` is not among the
  available sources);
* the second link-resolution pass (`resolveLinksSecondPass` in
  `link-resolution-pass.ts`), over a token-level model of file content.

JavaScript `x || d` defaulting on numbers (where `0` is falsy) is modelled
explicitly by `jsOrOne` / `Option.getD 0` as appropriate.
-/

/-! ## Push command: version conflict detection and size limit

Embeds `updateExistingPage` and `createNewPage` from the push command.
The source reads `const localVersion = frontmatter.version || 1` and
`const remoteVersion = remotePage.version?.number || 1`; both coalesce
`undefined` and `0` to `1`, which `jsOrOne` models.
-/

/-- JavaScript `v || 1` on an optional number: `undefined` and `0` both give `1`. -/
def jsOrOne : Option Nat → Nat
  | none => 1
  | some 0 => 1
  | some (n + 1) => n + 1

/-- `MAX_PAGE_SIZE = 65000` from the push command source ("Confluence has a
~65k character limit"). -/
def MAX_PAGE_SIZE : Nat := 65000

/-- Outcome of `updateExistingPage`. Constructors correspond to the four
terminal behaviors of the source: `conflictExit` is the
`process.exit(EXIT_CODES.VERSION_CONFLICT)` path that prints both version
numbers; `tooLargeExit` is the `process.exit(EXIT_CODES.INVALID_ARGUMENTS)`
path for oversized HTML; `dryRunOnly` returns before `client.updatePage`;
`updateSent` is the one path on which `client.updatePage` is called, and it
records the `version.number` attached to the update request. -/
inductive PushOutcome where
  | conflictExit (localVersion remoteVersion : Nat)
  | tooLargeExit (size : Nat)
  | dryRunOnly (newVersion : Nat)
  | updateSent (newVersion : Nat)
deriving DecidableEq, Repr

/-- Embedding of `updateExistingPage` from the push command source.
The checks appear in source order: the version check
(`if (!options.force && localVersion !== remoteVersion)`) runs before the
HTML size check (`if (html.length > MAX_PAGE_SIZE)`), which runs before
`const newVersion = (options.force ? remoteVersion : localVersion) + 1`,
the dry-run return, and `client.updatePage(updateRequest)`.
`htmlLength` stands for `html.length` of the converted markdown. -/
def updateExistingPage (force dryRun : Bool) (fmVersion remoteVersionField : Option Nat)
    (htmlLength : Nat) : PushOutcome :=
  if force = false ∧ jsOrOne fmVersion ≠ jsOrOne remoteVersionField then
    PushOutcome.conflictExit (jsOrOne fmVersion) (jsOrOne remoteVersionField)
  else if htmlLength > MAX_PAGE_SIZE then
    PushOutcome.tooLargeExit htmlLength
  else if dryRun then
    PushOutcome.dryRunOnly ((if force then jsOrOne remoteVersionField else jsOrOne fmVersion) + 1)
  else
    PushOutcome.updateSent ((if force then jsOrOne remoteVersionField else jsOrOne fmVersion) + 1)

/-- Outcome of `createNewPage`: the size check
(`process.exit(EXIT_CODES.INVALID_ARGUMENTS)`) runs before parent
validation, the dry-run return, and `client.createPage`. -/
inductive CreateOutcome where
  | tooLargeExit (size : Nat)
  | parentNotFoundExit
  | dryRunOnly
  | createSent
deriving DecidableEq, Repr

/-- JavaScript truthiness of an optional string: `undefined` and `""` are falsy. -/
def jsTruthyStr : Option String → Bool
  | none => false
  | some s => !(s = "")

/-- Embedding of `createNewPage` from the push command source.
`parentExists` stands for `client.getPage(frontmatter.parent_id)`
succeeding rather than throwing `PageNotFoundError`. -/
def createNewPage (dryRun : Bool) (parentId : Option String) (parentExists : Bool)
    (htmlLength : Nat) : CreateOutcome :=
  if htmlLength > MAX_PAGE_SIZE then
    CreateOutcome.tooLargeExit htmlLength
  else if jsTruthyStr parentId ∧ parentExists = false then
    CreateOutcome.parentNotFoundExit
  else if dryRun then
    CreateOutcome.dryRunOnly
  else
    CreateOutcome.createSent

/-- C3: pushing an existing page without the override flag is rejected as a
version conflict — reporting both version numbers and issuing no remote
update — whenever the effective local frontmatter version differs from the
freshly fetched remote version, in either direction; an update is sent only
when the two are equal. -/
theorem updateExistingPage_conflict_strict (dryRun : Bool)
    (fmVersion remoteVersionField : Option Nat) (htmlLength : Nat) :
    (jsOrOne fmVersion ≠ jsOrOne remoteVersionField →
      updateExistingPage false dryRun fmVersion remoteVersionField htmlLength =
        PushOutcome.conflictExit (jsOrOne fmVersion) (jsOrOne remoteVersionField) ∧
      ∀ n, updateExistingPage false dryRun fmVersion remoteVersionField htmlLength ≠
        PushOutcome.updateSent n) ∧
    (∀ n, updateExistingPage false dryRun fmVersion remoteVersionField htmlLength =
        PushOutcome.updateSent n →
      jsOrOne fmVersion = jsOrOne remoteVersionField) := by
  constructor
  · intro hne
    have hcond : (false = false ∧ jsOrOne fmVersion ≠ jsOrOne remoteVersionField) := ⟨rfl, hne⟩
    constructor
    · unfold updateExistingPage
      rw [if_pos hcond]
    · intro n
      unfold updateExistingPage
      rw [if_pos hcond]
      simp
  · intro n h
    by_contra hne
    unfold updateExistingPage at h
    rw [if_pos (show (false = false ∧ jsOrOne fmVersion ≠ jsOrOne remoteVersionField) from
      ⟨rfl, hne⟩)] at h
    exact absurd h (by simp)

/-- Witness for C3: local version 3 against remote version 5 without force is
rejected, reporting both numbers. -/
theorem updateExistingPage_conflict_strict_witness :
    updateExistingPage false false (some 3) (some 5) 10 = PushOutcome.conflictExit 3 5 :=
  ((updateExistingPage_conflict_strict false (some 3) (some 5) 10).1 (by decide)).1

/-- C4: whenever `updateExistingPage` actually sends an update request, the
version number attached to it is the remote version plus one — on a clean
push (local = remote) this coincides with local + 1, and on a force push it
is always remote + 1 regardless of the local version. -/
theorem updateExistingPage_newVersion (force dryRun : Bool)
    (fmVersion remoteVersionField : Option Nat) (htmlLength n : Nat)
    (h : updateExistingPage force dryRun fmVersion remoteVersionField htmlLength =
      PushOutcome.updateSent n) :
    n = jsOrOne remoteVersionField + 1 := by
  unfold updateExistingPage at h
  split_ifs at h with h1 h2 h3 h4
  all_goals try simp at h
  all_goals
    first
      | omega
      | (have heq : jsOrOne fmVersion = jsOrOne remoteVersionField := by
           by_contra hne
           refine h1 ⟨?_, hne⟩
           cases hf : force with
           | true => exact absurd hf h4
           | false => rfl
         omega)

/-- Witness for C4: a force push with local version 3 against remote version 5
produces new version 6 = remote + 1, never local + 1 = 4. -/
theorem updateExistingPage_newVersion_witness :
    updateExistingPage true false (some 3) (some 5) 10 = PushOutcome.updateSent 6 ∧
      (6 : Nat) = jsOrOne (some 5) + 1 :=
  ⟨by decide, updateExistingPage_newVersion true false (some 3) (some 5) 10 6 (by decide)⟩

/-- C10: when the converted HTML exceeds 65000 characters (`MAX_PAGE_SIZE`),
`createNewPage` exits with the invalid-arguments error before
`client.createPage` is reached, and `updateExistingPage` never reaches
`client.updatePage`; whenever the update flow reaches HTML conversion at all
(force set, or local and remote versions equal), it too exits with the
invalid-arguments error. Neither the remote page nor the local file is
touched on these exits (all writes occur strictly after the create/update
call in the source). -/
theorem push_size_limit (force dryRun : Bool) (parentId : Option String) (parentExists : Bool)
    (fmVersion remoteVersionField : Option Nat) (htmlLength : Nat)
    (hbig : htmlLength > 65000) :
    createNewPage dryRun parentId parentExists htmlLength =
      CreateOutcome.tooLargeExit htmlLength ∧
    (∀ n, updateExistingPage force dryRun fmVersion remoteVersionField htmlLength ≠
      PushOutcome.updateSent n) ∧
    ((force = true ∨ jsOrOne fmVersion = jsOrOne remoteVersionField) →
      updateExistingPage force dryRun fmVersion remoteVersionField htmlLength =
        PushOutcome.tooLargeExit htmlLength) := by
  have hbig' : htmlLength > MAX_PAGE_SIZE := hbig
  refine ⟨?_, ?_, ?_⟩
  · simp only [createNewPage]
    split_ifs
    all_goals rfl
  · intro n h
    unfold updateExistingPage at h
    split_ifs at h
    all_goals exact absurd h (by simp)
  · intro hreach
    simp only [updateExistingPage]
    split_ifs with h1
    all_goals
      first
        | rfl
        | (exfalso
           rcases hreach with hf | heq
           · rw [hf] at h1
             simp at h1
           · exact h1.2 heq)

/-- Witness for C10: 65001-character HTML is rejected on both the create path
and the (clean, version 2 = 2) update path. -/
theorem push_size_limit_witness :
    createNewPage false none true 65001 = CreateOutcome.tooLargeExit 65001 ∧
      (∀ n, updateExistingPage false false (some 2) (some 2) 65001 ≠
        PushOutcome.updateSent n) ∧
      ((false = true ∨ jsOrOne (some 2) = jsOrOne (some 2)) →
        updateExistingPage false false (some 2) (some 2) 65001 =
          PushOutcome.tooLargeExit 65001) :=
  push_size_limit false false none true (some 2) (some 2) 65001 (by decide)

/-! ## Diff Engine

`sync-engine.ts` is not among the available sources; only its tests are.
The Diff Engine below is therefore modelled from the spec (§4.3) and
constrained by the `computeDiff` tests in `sync-engine.test.ts` and by
ADR-0024/0025: remote pages are filtered to `status = current` first;
a current page absent from the mapping is `added`; a mapped current page is
`modified` iff its remote version strictly exceeds the local version, where
the local version is read from the Page State Cache and defaults to `0`
when no cache is supplied (or the cache has no record); a mapped id absent
from the filtered remote set is `deleted`.
-/

/-- Remote entity as consumed by the Diff Engine (`id`, `title`, `status`,
`version.number`). -/
structure RemotePage where
  id : String
  title : String
  status : String
  version : Nat
deriving DecidableEq, Repr

/-- `FullPageInfo` from ADR-0024: full page information derived from a
file's frontmatter. -/
structure FullPageInfo where
  pageId : String
  localPath : String
  title : String
  version : Nat
deriving DecidableEq, Repr

/-- `PageStateCache` from ADR-0024, with maps modelled as association lists. -/
structure PageStateCache where
  pages : List (String × FullPageInfo)
  pathToPageId : List (String × String)
deriving DecidableEq, Repr

/-- One entry of a `SyncDiff` list (`SyncChange` from the sync types source,
with the `type` field implied by which list the entry sits in). -/
structure SyncChange where
  pageId : String
  title : String
  localPath : Option String
deriving DecidableEq, Repr

/-- `SyncDiff` from the sync types source: three lists of changes. -/
structure SyncDiff where
  added : List SyncChange
  modified : List SyncChange
  deleted : List SyncChange
deriving DecidableEq, Repr

/-- First-match association-list lookup (models `Map.get` / JS record access;
record keys are unique in the program, so first-match is exact). -/
def alookup {α β : Type} [DecidableEq α] (k : α) : List (α × β) → Option β
  | [] => none
  | p :: rest => if p.1 = k then some p.2 else alookup k rest

theorem alookup_mem {α β : Type} [DecidableEq α] {k : α} {l : List (α × β)} {v : β}
    (h : alookup k l = some v) : (k, v) ∈ l := by
  induction l with
  | nil => exact absurd h (by simp [alookup])
  | cons p rest ih =>
    unfold alookup at h
    split_ifs at h with hk
    · rcases p with ⟨k', v'⟩
      simp only at hk
      subst hk
      cases Option.some.inj h
      exact List.mem_cons_self _ _
    · exact List.mem_cons_of_mem _ (ih h)

/-- Modelled from the spec: `remotePages.filter((page) => page.status === 'current')`
(quoted verbatim in ADR-0025 from `sync-engine.ts`). -/
def currentRemotePages (remotePages : List RemotePage) : List RemotePage :=
  remotePages.filter (fun p => decide (p.status = "current"))

theorem mem_currentRemotePages {remotePages : List RemotePage} {p : RemotePage} :
    p ∈ currentRemotePages remotePages ↔ p ∈ remotePages ∧ p.status = "current" := by
  simp [currentRemotePages, List.mem_filter]

/-- Modelled from the spec: the local version the Diff Engine compares
against — the Page State Cache record's version when one is supplied,
stale-by-default `0` otherwise (spec §4.3: "stale by default, i.e.,
version 0"). -/
def localVersionFor (pageState : Option PageStateCache) (pageId : String) : Nat :=
  match pageState with
  | none => 0
  | some st =>
    match alookup pageId st.pages with
    | some info => info.version
    | none => 0

/-- Modelled from the spec: `computeDiff(remotePages, localConfig, pageState?)`
from `sync-engine.ts` (absent from the sources), per spec §4.3 and its
tests. `localPages` is the mapping file's `pages` table (`id → relativePath`);
a `null` local config is the empty mapping. -/
def computeDiff (remotePages : List RemotePage) (localPages : List (String × String))
    (pageState : Option PageStateCache) : SyncDiff :=
  { added := ((currentRemotePages remotePages).filter
      (fun p => decide (alookup p.id localPages = none))).map
      (fun p => { pageId := p.id, title := p.title, localPath := none })
    modified := ((currentRemotePages remotePages).filter
      (fun p => (alookup p.id localPages).isSome &&
        decide (localVersionFor pageState p.id < p.version))).map
      (fun p => { pageId := p.id, title := p.title, localPath := alookup p.id localPages })
    deleted := (localPages.filter
      (fun e => (currentRemotePages remotePages).all (fun p => decide (p.id ≠ e.1)))).map
      (fun e => { pageId := e.1, title := "", localPath := some e.2 }) }

theorem mem_added_ids {remotePages : List RemotePage} {localPages : List (String × String)}
    {pageState : Option PageStateCache} {x : String} :
    x ∈ (computeDiff remotePages localPages pageState).added.map SyncChange.pageId ↔
      ∃ p ∈ currentRemotePages remotePages, p.id = x ∧ alookup p.id localPages = none := by
  simp only [computeDiff, List.map_map, List.mem_map, List.mem_filter, Function.comp,
    decide_eq_true_eq]
  constructor
  · rintro ⟨p, ⟨hp, hnone⟩, rfl⟩
    exact ⟨p, hp, rfl, hnone⟩
  · rintro ⟨p, hp, rfl, hnone⟩
    exact ⟨p, ⟨hp, hnone⟩, rfl⟩

theorem mem_modified_ids {remotePages : List RemotePage} {localPages : List (String × String)}
    {pageState : Option PageStateCache} {x : String} :
    x ∈ (computeDiff remotePages localPages pageState).modified.map SyncChange.pageId ↔
      ∃ p ∈ currentRemotePages remotePages, p.id = x ∧
        (alookup p.id localPages).isSome ∧ localVersionFor pageState p.id < p.version := by
  simp only [computeDiff, List.map_map, List.mem_map, List.mem_filter, Function.comp,
    Bool.and_eq_true, decide_eq_true_eq]
  constructor
  · rintro ⟨p, ⟨hp, hsome, hlt⟩, rfl⟩
    exact ⟨p, hp, rfl, hsome, hlt⟩
  · rintro ⟨p, hp, rfl, hsome, hlt⟩
    exact ⟨p, ⟨hp, hsome, hlt⟩, rfl⟩

theorem mem_deleted_ids {remotePages : List RemotePage} {localPages : List (String × String)}
    {pageState : Option PageStateCache} {x : String} :
    x ∈ (computeDiff remotePages localPages pageState).deleted.map SyncChange.pageId ↔
      ∃ e ∈ localPages, e.1 = x ∧
        ∀ p ∈ currentRemotePages remotePages, p.id ≠ e.1 := by
  simp only [computeDiff, List.map_map, List.mem_map, List.mem_filter, Function.comp,
    List.all_eq_true, decide_eq_true_eq]
  constructor
  · rintro ⟨e, ⟨he, hall⟩, rfl⟩
    exact ⟨e, he, rfl, hall⟩
  · rintro ⟨e, he, rfl, hall⟩
    exact ⟨e, ⟨he, hall⟩, rfl⟩

theorem noCurrent_of_nonCurrent {remotePages : List RemotePage} {e : RemotePage}
    (hNodup : (remotePages.map RemotePage.id).Nodup)
    (he : e ∈ remotePages) (hstat : e.status ≠ "current") :
    ∀ p ∈ currentRemotePages remotePages, p.id ≠ e.id := by
  intro p hp hpe
  rcases mem_currentRemotePages.mp hp with ⟨hpr, hpcur⟩
  have : p = e := List.inj_on_of_nodup_map hNodup hpr he hpe
  rw [this] at hpcur
  exact hstat hpcur

/-- C1: under a duplicate-free remote snapshot, a remote entity whose status
is not `current` never lands in `added` when it is unmapped, and when it is
mapped it always lands in `deleted` and never in `modified`, for every page
state cache (so for every possible version comparison). -/
theorem computeDiff_status_filter (remotePages : List RemotePage)
    (localPages : List (String × String)) (pageState : Option PageStateCache)
    (e : RemotePage)
    (hNodup : (remotePages.map RemotePage.id).Nodup)
    (he : e ∈ remotePages) (hstat : e.status ≠ "current") :
    (alookup e.id localPages = none →
      e.id ∉ (computeDiff remotePages localPages pageState).added.map SyncChange.pageId) ∧
    (∀ path, alookup e.id localPages = some path →
      e.id ∈ (computeDiff remotePages localPages pageState).deleted.map SyncChange.pageId ∧
      e.id ∉ (computeDiff remotePages localPages pageState).modified.map SyncChange.pageId) := by
  have hnc := noCurrent_of_nonCurrent hNodup he hstat
  constructor
  · intro _ hmem
    rcases mem_added_ids.mp hmem with ⟨p, hp, hpid, _⟩
    exact hnc p hp hpid
  · intro path hpath
    constructor
    · exact mem_deleted_ids.mpr ⟨(e.id, path), alookup_mem hpath, rfl, fun p hp => hnc p hp⟩
    · intro hmem
      rcases mem_modified_ids.mp hmem with ⟨p, hp, hpid, _, _⟩
      exact hnc p hp hpid

/-- Witness for C1: an archived page that is mapped locally is deleted and
not modified; an archived unmapped page is not added. -/
theorem computeDiff_status_filter_witness :
    (alookup "page-3" [("page-2", "page-2.md")] = none →
      "page-3" ∉ (computeDiff
        [⟨"page-1", "Current Page", "current", 1⟩,
         ⟨"page-2", "Archived Page", "archived", 1⟩,
         ⟨"page-3", "Trashed Page", "trashed", 4⟩]
        [("page-2", "page-2.md")] none).added.map SyncChange.pageId) ∧
    (∀ path, alookup "page-2" [("page-2", "page-2.md")] = some path →
      "page-2" ∈ (computeDiff
        [⟨"page-1", "Current Page", "current", 1⟩,
         ⟨"page-2", "Archived Page", "archived", 1⟩,
         ⟨"page-3", "Trashed Page", "trashed", 4⟩]
        [("page-2", "page-2.md")] none).deleted.map SyncChange.pageId ∧
      "page-2" ∉ (computeDiff
        [⟨"page-1", "Current Page", "current", 1⟩,
         ⟨"page-2", "Archived Page", "archived", 1⟩,
         ⟨"page-3", "Trashed Page", "trashed", 4⟩]
        [("page-2", "page-2.md")] none).modified.map SyncChange.pageId) :=
  ⟨(computeDiff_status_filter _ _ none
      ⟨"page-3", "Trashed Page", "trashed", 4⟩ (by decide) (by decide) (by decide)).1,
   (computeDiff_status_filter _ _ none
      ⟨"page-2", "Archived Page", "archived", 1⟩ (by decide) (by decide) (by decide)).2⟩

/-- C2: under a duplicate-free remote snapshot, a mapped `current` remote
entity whose local record is supplied by the page state cache is `modified`
iff its remote version strictly exceeds the cached local version; when the
two versions are equal it appears in none of the three diff lists. -/
theorem computeDiff_version_monotonicity (remotePages : List RemotePage)
    (localPages : List (String × String)) (st : PageStateCache)
    (e : RemotePage) (path : String) (info : FullPageInfo)
    (hNodup : (remotePages.map RemotePage.id).Nodup)
    (he : e ∈ remotePages) (hstat : e.status = "current")
    (hmap : alookup e.id localPages = some path)
    (hcache : alookup e.id st.pages = some info) :
    (e.id ∈ (computeDiff remotePages localPages (some st)).modified.map SyncChange.pageId ↔
      info.version < e.version) ∧
    (info.version = e.version →
      e.id ∉ (computeDiff remotePages localPages (some st)).added.map SyncChange.pageId ∧
      e.id ∉ (computeDiff remotePages localPages (some st)).modified.map SyncChange.pageId ∧
      e.id ∉ (computeDiff remotePages localPages (some st)).deleted.map SyncChange.pageId) := by
  have hecur : e ∈ currentRemotePages remotePages := mem_currentRemotePages.mpr ⟨he, hstat⟩
  have hlocal : localVersionFor (some st) e.id = info.version := by
    simp [localVersionFor, hcache]
  have hiff : e.id ∈ (computeDiff remotePages localPages (some st)).modified.map
      SyncChange.pageId ↔ info.version < e.version := by
    constructor
    · intro hmem
      rcases mem_modified_ids.mp hmem with ⟨p, hp, hpid, _, hlt⟩
      have hpe : p = e :=
        List.inj_on_of_nodup_map hNodup (mem_currentRemotePages.mp hp).1 he hpid
      rw [hpe] at hlt
      rw [hlocal] at hlt
      exact hlt
    · intro hlt
      refine mem_modified_ids.mpr ⟨e, hecur, rfl, ?_, ?_⟩
      · rw [hmap]
        rfl
      · rw [hlocal]
        exact hlt
  refine ⟨hiff, ?_⟩
  intro heq
  refine ⟨?_, ?_, ?_⟩
  · intro hmem
    rcases mem_added_ids.mp hmem with ⟨p, hp, hpid, hnone⟩
    have hpe : p = e :=
      List.inj_on_of_nodup_map hNodup (mem_currentRemotePages.mp hp).1 he hpid
    rw [hpe, hmap] at hnone
    exact Option.noConfusion hnone
  · intro hmem
    have := hiff.mp hmem
    omega
  · intro hmem
    rcases mem_deleted_ids.mp hmem with ⟨entry, _, hkey, hall⟩
    exact hall e hecur hkey.symm

/-- Witness for C2: remote `page-1` at version 3 with cached local version 1
is modified (test "detects modified pages" with a cache); at equal versions
it appears nowhere. -/
theorem computeDiff_version_monotonicity_witness :
    ("page-1" ∈ (computeDiff [⟨"page-1", "Page 1", "current", 3⟩] [("page-1", "page-1.md")]
        (some ⟨[("page-1", ⟨"page-1", "page-1.md", "Page 1", 1⟩)], [("page-1.md", "page-1")]⟩)
      ).modified.map SyncChange.pageId ↔ (1 : Nat) < 3) ∧
    ((1 : Nat) = 3 → True) :=
  ⟨(computeDiff_version_monotonicity
      [⟨"page-1", "Page 1", "current", 3⟩] [("page-1", "page-1.md")]
      ⟨[("page-1", ⟨"page-1", "page-1.md", "Page 1", 1⟩)], [("page-1.md", "page-1")]⟩
      ⟨"page-1", "Page 1", "current", 3⟩ "page-1.md" ⟨"page-1", "page-1.md", "Page 1", 1⟩
      (by decide) (by decide) (by decide) (by decide) (by decide)).1,
   fun h => trivial⟩

/-- C5: with no page state cache the Diff Engine takes the local version to
be the stale default 0, so every mapped `current` remote entity with version
at least 1 is placed in `modified` — an unconditional refresh of all mapped
ids. -/
theorem computeDiff_noCache_refresh (remotePages : List RemotePage)
    (localPages : List (String × String)) (e : RemotePage) (path : String)
    (he : e ∈ remotePages) (hstat : e.status = "current")
    (hmap : alookup e.id localPages = some path) (hver : 1 ≤ e.version) :
    localVersionFor none e.id = 0 ∧
    e.id ∈ (computeDiff remotePages localPages none).modified.map SyncChange.pageId := by
  refine ⟨rfl, ?_⟩
  refine mem_modified_ids.mpr ⟨e, mem_currentRemotePages.mpr ⟨he, hstat⟩, rfl, ?_, ?_⟩
  · rw [hmap]
    rfl
  · show localVersionFor none e.id < e.version
    have h0 : localVersionFor none e.id = 0 := rfl
    rw [h0]
    omega

/-- Witness for C5: without a cache, mapped `page-1` at remote version 2 is
modified (test "detects modified pages": "Without PageStateCache, local
version defaults to 0, so remote v2 > local v0 -> modified"). -/
theorem computeDiff_noCache_refresh_witness :
    localVersionFor none "page-1" = 0 ∧
    "page-1" ∈ (computeDiff [⟨"page-1", "Page 1", "current", 2⟩]
      [("page-1", "page-1.md")] none).modified.map SyncChange.pageId :=
  computeDiff_noCache_refresh [⟨"page-1", "Page 1", "current", 2⟩] [("page-1", "page-1.md")]
    ⟨"page-1", "Page 1", "current", 2⟩ "page-1.md" (by decide) (by decide) (by decide) (by decide)

/-! ## Duplicate Detector

Embeds `findBestDuplicate` from the health-check source. A file's
`syncedAt` is modelled as the parsed timestamp of the ISO `synced_at`
string (`new Date(s).getTime()`), so comparing timestamps as naturals
mirrors the source's `Date` comparison; a missing string is `none`.
`version || 0` in the source coalesces `undefined` and `0` to `0`, which is
exactly `Option.getD 0`.
-/

/-- `ScannedFile` from the health-check source (fields the ranking reads). -/
structure ScannedFile where
  path : String
  pageId : Option String
  version : Option Nat
  title : Option String
  syncedAt : Option Nat
deriving DecidableEq, Repr

/-- One step of the `files.reduce((best, current) => ...)` in
`findBestDuplicate`: prefer higher version (`|| 0` defaults), then — at
equal versions — `if (!best.syncedAt) return current;
if (!current.syncedAt) return best;` and finally the newer `syncedAt`
(keeping `best` on ties). -/
def bestStep (best current : ScannedFile) : ScannedFile :=
  if best.version.getD 0 < current.version.getD 0 then current
  else if current.version.getD 0 < best.version.getD 0 then best
  else if best.syncedAt = none then current
  else if current.syncedAt = none then best
  else if best.syncedAt.getD 0 < current.syncedAt.getD 0 then current
  else best

/-- Embedding of `findBestDuplicate`: `files.reduce` with no initial value
folds the tail over the head; the source throws on an empty array, modelled
as `none`. -/
def findBestDuplicate : List ScannedFile → Option ScannedFile
  | [] => none
  | h :: t => some (List.foldl bestStep h t)

/-- The ranking order the keeper actually satisfies: every member is
strictly below the keeper's (defaulted) version, or ties it and either has
no `syncedAt` or has one that is not newer than the keeper's. -/
def rankedNoWorse (x keeper : ScannedFile) : Prop :=
  x.version.getD 0 < keeper.version.getD 0 ∨
    (x.version.getD 0 = keeper.version.getD 0 ∧
      (x.syncedAt = none ∨
        (keeper.syncedAt ≠ none ∧ x.syncedAt.getD 0 ≤ keeper.syncedAt.getD 0)))

theorem rankedNoWorse_refl (x : ScannedFile) : rankedNoWorse x x := by
  unfold rankedNoWorse
  rcases hx : x.syncedAt with _ | t
  · exact Or.inr ⟨rfl, Or.inl rfl⟩
  · exact Or.inr ⟨rfl, Or.inr ⟨by simp, le_refl _⟩⟩

theorem rankedNoWorse_trans {x b r : ScannedFile}
    (h1 : rankedNoWorse x b) (h2 : rankedNoWorse b r) : rankedNoWorse x r := by
  unfold rankedNoWorse at h1 h2 ⊢
  rcases h1 with h1 | ⟨hv1, hs1⟩
  · rcases h2 with h2 | ⟨hv2, _⟩
    · exact Or.inl (lt_trans h1 h2)
    · exact Or.inl (hv2 ▸ h1)
  · rcases h2 with h2 | ⟨hv2, hs2⟩
    · exact Or.inl (hv1 ▸ h2)
    · refine Or.inr ⟨hv1.trans hv2, ?_⟩
      rcases hs1 with hs1 | ⟨hb, hle⟩
      · exact Or.inl hs1
      · rcases hs2 with hs2 | ⟨hr, hle2⟩
        · exact absurd hs2 hb
        · exact Or.inr ⟨hr, le_trans hle hle2⟩

theorem bestStep_mem (b c : ScannedFile) : bestStep b c = b ∨ bestStep b c = c := by
  unfold bestStep
  split_ifs <;> first | exact Or.inl rfl | exact Or.inr rfl

theorem bestStep_rank_left (b c : ScannedFile) : rankedNoWorse b (bestStep b c) := by
  unfold bestStep
  split_ifs with h1 h2 h3 h4 h5
  · exact Or.inl h1
  · exact rankedNoWorse_refl b
  · exact Or.inr ⟨by omega, Or.inl h3⟩
  · exact rankedNoWorse_refl b
  · exact Or.inr ⟨by omega, Or.inr ⟨h4, le_of_lt h5⟩⟩
  · exact rankedNoWorse_refl b

theorem bestStep_rank_right (b c : ScannedFile) : rankedNoWorse c (bestStep b c) := by
  unfold bestStep
  split_ifs with h1 h2 h3 h4 h5
  · exact rankedNoWorse_refl c
  · exact Or.inl h2
  · exact rankedNoWorse_refl c
  · exact Or.inr ⟨by omega, Or.inl h4⟩
  · exact rankedNoWorse_refl c
  · exact Or.inr ⟨by omega, Or.inr ⟨h3, by omega⟩⟩

theorem foldl_bestStep_mem (t : List ScannedFile) :
    ∀ h : ScannedFile, List.foldl bestStep h t ∈ h :: t := by
  induction t with
  | nil =>
    intro h
    simp [List.foldl]
  | cons c t ih =>
    intro h
    rw [List.foldl_cons]
    rcases List.mem_cons.mp (ih (bestStep h c)) with heq | hmem2
    · rw [heq]
      rcases bestStep_mem h c with hb | hb <;> rw [hb]
      · exact List.mem_cons_self _ _
      · exact List.mem_cons.mpr (Or.inr (List.mem_cons_self _ _))
    · exact List.mem_cons.mpr (Or.inr (List.mem_cons.mpr (Or.inr hmem2)))

theorem foldl_bestStep_rank (t : List ScannedFile) :
    ∀ h x : ScannedFile, x ∈ h :: t → rankedNoWorse x (List.foldl bestStep h t) := by
  induction t with
  | nil =>
    intro h x hx
    rcases List.mem_cons.mp hx with rfl | hx
    · exact rankedNoWorse_refl x
    · exact absurd hx (List.not_mem_nil x)
  | cons c t ih =>
    intro h x hx
    rw [List.foldl_cons]
    rcases List.mem_cons.mp hx with rfl | hx2
    · exact rankedNoWorse_trans (bestStep_rank_left x c)
        (ih (bestStep x c) _ (List.mem_cons_self _ _))
    · rcases List.mem_cons.mp hx2 with rfl | hx3
      · exact rankedNoWorse_trans (bestStep_rank_right h x)
          (ih (bestStep h x) _ (List.mem_cons_self _ _))
      · exact ih (bestStep h c) x (List.mem_cons.mpr (Or.inr hx3))

theorem foldl_bestStep_allNone (t : List ScannedFile) :
    ∀ h : ScannedFile, (∀ x ∈ h :: t, x.version = none ∧ x.syncedAt = none) →
      List.foldl bestStep h t = (h :: t).getLast (List.cons_ne_nil h t) := by
  induction t with
  | nil =>
    intro h _
    rfl
  | cons c t ih =>
    intro h hall
    rw [List.foldl_cons]
    have hh := hall h (List.mem_cons_self _ _)
    have hc := hall c (List.mem_cons.mpr (Or.inr (List.mem_cons_self _ _)))
    have hstep : bestStep h c = c := by
      unfold bestStep
      simp [hh.1, hh.2, hc.1]
    rw [hstep]
    rw [ih c (fun x hx => hall x (List.mem_cons.mpr (Or.inr hx)))]
    exact (List.getLast_cons (List.cons_ne_nil c t)).symm

/-- C7 counterexample: two duplicate files carrying the same remote id with
neither `version` nor `syncedAt` available. `findBestDuplicate` does not
tell the caller that no deterministic keeper exists — it silently returns a
keeper, namely whichever file the scan listed last (swapping the input
order swaps the keeper). -/
theorem findBestDuplicate_no_signal_counterexample :
    findBestDuplicate
      [⟨"a.md", some "page-1", none, none, none⟩, ⟨"b.md", some "page-1", none, none, none⟩] =
      some ⟨"b.md", some "page-1", none, none, none⟩ ∧
    findBestDuplicate
      [⟨"b.md", some "page-1", none, none, none⟩, ⟨"a.md", some "page-1", none, none, none⟩] =
      some ⟨"a.md", some "page-1", none, none, none⟩ := by
  constructor <;> rfl

/-- C7 (amended): for every nonempty duplicate set, `findBestDuplicate`
returns a keeper from the set; every member's defaulted version is at most
the keeper's, and a member tying the keeper's version either lacks
`syncedAt` or carries one not newer than the keeper's (so the highest
version wins and, among syncedAt-carrying ties, the most recent `syncedAt`
wins); but when every member lacks both `version` and `syncedAt` the
last-listed member is chosen silently — the caller is never told that no
deterministic keeper exists. -/
theorem findBestDuplicate_ranking (h : ScannedFile) (t : List ScannedFile) :
    ∃ keeper, findBestDuplicate (h :: t) = some keeper ∧ keeper ∈ h :: t ∧
      (∀ x ∈ h :: t, rankedNoWorse x keeper) ∧
      ((∀ x ∈ h :: t, x.version = none ∧ x.syncedAt = none) →
        keeper = (h :: t).getLast (List.cons_ne_nil h t)) :=
  ⟨List.foldl bestStep h t, rfl, foldl_bestStep_mem t h,
    fun x hx => foldl_bestStep_rank t h x hx,
    fun hall => foldl_bestStep_allNone t h hall⟩

/-- Witness for C7 (amended): applied to a concrete duplicate set where
`b.md` carries the higher version. -/
theorem findBestDuplicate_ranking_witness :
    ∃ keeper,
      findBestDuplicate
        [⟨"a.md", some "page-1", some 2, none, some 50⟩,
         ⟨"b.md", some "page-1", some 3, none, some 40⟩] = some keeper ∧
      keeper ∈
        [⟨"a.md", some "page-1", some 2, none, some 50⟩,
         ⟨"b.md", some "page-1", some 3, none, some 40⟩] ∧
      (∀ x ∈ [(⟨"a.md", some "page-1", some 2, none, some 50⟩ : ScannedFile),
              ⟨"b.md", some "page-1", some 3, none, some 40⟩], rankedNoWorse x keeper) ∧
      ((∀ x ∈ [(⟨"a.md", some "page-1", some 2, none, some 50⟩ : ScannedFile),
               ⟨"b.md", some "page-1", some 3, none, some 40⟩],
          x.version = none ∧ x.syncedAt = none) →
        keeper = ([⟨"a.md", some "page-1", some 2, none, some 50⟩,
                   ⟨"b.md", some "page-1", some 3, none, some 40⟩] :
            List ScannedFile).getLast (List.cons_ne_nil _ _)) :=
  findBestDuplicate_ranking ⟨"a.md", some "page-1", some 2, none, some 50⟩
    [⟨"b.md", some "page-1", some 3, none, some 40⟩]

/-! ## Page State Cache builder

`page-state.ts` is not among the available sources; only its tests (in the
clone/page-state test file) and its consumers are. `buildPageStateFromFiles`
is therefore modelled from the spec (§4.1) and its tests: each mapping
entry `pageId → relativePath` is checked for directory traversal (the path
must resolve within the root), then the file is read and its frontmatter
parsed; not-found / parse-failure / traversal entries are excluded from
both maps with one warning each, an id-mismatch is registered under the
mapping key but flagged, and missing `title`/`version` default to `""`/`1`.
Relative paths are modelled as segment lists, and the traversal check as
resolving `..` segments against the accumulated depth below the root.
-/

/-- A relative path, as a list of segments (`"a/b.md"` is `["a", "b.md"]`). -/
abbrev RelPath := List String

/-- Depth-tracking core of the traversal check: a path escapes the root iff
resolving it ever steps above the starting directory. -/
def pathEscapesAux : Nat → List String → Bool
  | _, [] => false
  | depth, seg :: rest =>
    if seg = "." ∨ seg = "" then pathEscapesAux depth rest
    else if seg = ".." then
      match depth with
      | 0 => true
      | d + 1 => pathEscapesAux d rest
    else pathEscapesAux (depth + 1) rest

/-- Modelled from the spec: "paths must resolve within the root (reject any
path that escapes via traversal)" — the `resolve`-then-prefix check. -/
def pathEscapes (p : RelPath) : Bool := pathEscapesAux 0 p

/-- The frontmatter fields the Page State Cache reads. -/
structure Frontmatter where
  page_id : Option String
  title : Option String
  version : Option Nat
  updated_at : Option String
  synced_at : Option String
deriving DecidableEq, Repr

/-- Outcome of reading and parsing one mapped file. -/
inductive FileReadOutcome where
  | missing
  | malformed
  | parsed (frontmatter : Frontmatter)
deriving DecidableEq, Repr

/-- The filesystem visible to the builder: relative path to read outcome;
an unlisted path is a missing file. -/
def readFile (fileSystem : List (RelPath × FileReadOutcome)) (p : RelPath) : FileReadOutcome :=
  (alookup p fileSystem).getD FileReadOutcome.missing

/-- `FullPageInfo` as the builder produces it (ADR-0024), with the path as
segments. -/
structure BuiltPageInfo where
  pageId : String
  localPath : RelPath
  title : String
  version : Nat
  updatedAt : Option String
  syncedAt : Option String
deriving DecidableEq, Repr

/-- One warning per exclusion cause (spec §4.1: not-found / parse-failure /
id-mismatch / traversal), each naming the mapping entry it concerns. -/
inductive BuildWarning where
  | traversal (pageId : String) (path : RelPath)
  | notFound (pageId : String) (path : RelPath)
  | parseFailure (pageId : String) (path : RelPath)
  | idMismatch (mappingId fileId : String) (path : RelPath)
deriving DecidableEq, Repr

/-- The mapping key a warning names. -/
def warningEntryId : BuildWarning → String
  | BuildWarning.traversal pid _ => pid
  | BuildWarning.notFound pid _ => pid
  | BuildWarning.parseFailure pid _ => pid
  | BuildWarning.idMismatch pid _ _ => pid

/-- The `pages` entries contributed by one mapping entry: none when the path
escapes or the file is missing/malformed; otherwise the record built from
the frontmatter under the mapping key, with `title` defaulting to `""` and
`version` to `1`. -/
def entryPages (fileSystem : List (RelPath × FileReadOutcome)) (e : String × RelPath) :
    List (String × BuiltPageInfo) :=
  if pathEscapes e.2 then []
  else
    match readFile fileSystem e.2 with
    | FileReadOutcome.parsed fm =>
      [(e.1, ⟨e.1, e.2, fm.title.getD "", fm.version.getD 1, fm.updated_at, fm.synced_at⟩)]
    | _ => []

/-- The `pathToPageId` entries contributed by one mapping entry. -/
def entryPathIds (fileSystem : List (RelPath × FileReadOutcome)) (e : String × RelPath) :
    List (RelPath × String) :=
  if pathEscapes e.2 then []
  else
    match readFile fileSystem e.2 with
    | FileReadOutcome.parsed _ => [(e.2, e.1)]
    | _ => []

/-- The warnings contributed by one mapping entry. -/
def entryWarnings (fileSystem : List (RelPath × FileReadOutcome)) (e : String × RelPath) :
    List BuildWarning :=
  if pathEscapes e.2 then [BuildWarning.traversal e.1 e.2]
  else
    match readFile fileSystem e.2 with
    | FileReadOutcome.missing => [BuildWarning.notFound e.1 e.2]
    | FileReadOutcome.malformed => [BuildWarning.parseFailure e.1 e.2]
    | FileReadOutcome.parsed fm =>
      match fm.page_id with
      | some fid => if fid ≠ e.1 then [BuildWarning.idMismatch e.1 fid e.2] else []
      | none => []

/-- `PageStateCache` plus the returned warnings (spec §4.1: warnings are
returned, not logged; the build itself always succeeds). -/
structure PageStateBuild where
  pages : List (String × BuiltPageInfo)
  pathToPageId : List (RelPath × String)
  warnings : List BuildWarning
deriving DecidableEq, Repr

/-- Modelled from the spec: `buildPageStateFromFiles(directory, pageMappings)`
from `page-state.ts` (absent from the sources), per spec §4.1 and the
page-state tests: processes mapping entries in order, excluding invalid
entries with one warning each and never failing the whole build. -/
def buildPageStateFromFiles (fileSystem : List (RelPath × FileReadOutcome))
    (pageMappings : List (String × RelPath)) : PageStateBuild :=
  { pages := pageMappings.flatMap (entryPages fileSystem)
    pathToPageId := pageMappings.flatMap (entryPathIds fileSystem)
    warnings := pageMappings.flatMap (entryWarnings fileSystem) }

theorem alookup_eq_none_of_keys {α β : Type} [DecidableEq α] {k : α} {l : List (α × β)}
    (h : ∀ kv ∈ l, kv.1 ≠ k) : alookup k l = none := by
  induction l with
  | nil => rfl
  | cons kv rest ih =>
    unfold alookup
    rw [if_neg (h kv (List.mem_cons_self _ _))]
    exact ih (fun kv2 h2 => h kv2 (List.mem_cons.mpr (Or.inr h2)))

theorem alookup_append {α β : Type} [DecidableEq α] (k : α) (a b : List (α × β)) :
    alookup k (a ++ b) =
      match alookup k a with
      | some v => some v
      | none => alookup k b := by
  induction a with
  | nil => rfl
  | cons kv rest ih =>
    by_cases hk : kv.1 = k
    · simp [alookup, hk]
    · simp only [List.cons_append, alookup, if_neg hk]
      exact ih

theorem entryPages_key {fileSystem : List (RelPath × FileReadOutcome)} {e : String × RelPath}
    {kv : String × BuiltPageInfo} (h : kv ∈ entryPages fileSystem e) : kv.1 = e.1 := by
  unfold entryPages at h
  split_ifs at h with hesc
  · exact absurd h (List.not_mem_nil kv)
  · rcases hr : readFile fileSystem e.2 with _ | _ | fm <;> rw [hr] at h
    · exact absurd h (List.not_mem_nil kv)
    · exact absurd h (List.not_mem_nil kv)
    · rcases List.mem_singleton.mp h with rfl
      rfl

theorem entryPathIds_key {fileSystem : List (RelPath × FileReadOutcome)} {e : String × RelPath}
    {kv : RelPath × String} (h : kv ∈ entryPathIds fileSystem e) :
    kv.1 = e.2 ∧ pathEscapes e.2 = false := by
  unfold entryPathIds at h
  split_ifs at h with hesc
  · exact absurd h (List.not_mem_nil kv)
  · rcases hr : readFile fileSystem e.2 with _ | _ | fm <;> rw [hr] at h
    · exact absurd h (List.not_mem_nil kv)
    · exact absurd h (List.not_mem_nil kv)
    · rcases List.mem_singleton.mp h with rfl
      exact ⟨rfl, by simp [hesc]⟩

theorem entryWarnings_key {fileSystem : List (RelPath × FileReadOutcome)} {e : String × RelPath}
    {w : BuildWarning} (h : w ∈ entryWarnings fileSystem e) : warningEntryId w = e.1 := by
  unfold entryWarnings at h
  split_ifs at h with hesc
  · rcases List.mem_singleton.mp h with rfl
    rfl
  · split at h
    · rcases List.mem_singleton.mp h with rfl
      rfl
    · rcases List.mem_singleton.mp h with rfl
      rfl
    · split at h
      · split_ifs at h with hne
        · rcases List.mem_singleton.mp h with rfl
          rfl
        · exact absurd h (List.not_mem_nil w)
      · exact absurd h (List.not_mem_nil w)

theorem alookup_bind_entryPages (fileSystem : List (RelPath × FileReadOutcome)) :
    ∀ (mappings : List (String × RelPath)) (e : String × RelPath),
      (mappings.map Prod.fst).Nodup → e ∈ mappings →
      alookup e.1 (mappings.flatMap (entryPages fileSystem)) =
        alookup e.1 (entryPages fileSystem e) := by
  intro mappings
  induction mappings with
  | nil =>
    intro e _ he
    exact absurd he (List.not_mem_nil e)
  | cons m rest ih =>
    intro e hnodup he
    rw [List.map_cons] at hnodup
    have hnd := List.nodup_cons.mp hnodup
    rw [List.flatMap_cons, alookup_append]
    rcases List.mem_cons.mp he with rfl | he2
    · cases hlook : alookup e.1 (entryPages fileSystem e) with
      | some v => rfl
      | none =>
        refine alookup_eq_none_of_keys ?_
        intro kv hkv
        rcases List.mem_flatMap.mp hkv with ⟨e2, he2, hkve⟩
        rw [entryPages_key hkve]
        intro heq
        exact hnd.1 (heq ▸ List.mem_map_of_mem Prod.fst he2)
    · have hm : alookup e.1 (entryPages fileSystem m) = none := by
        refine alookup_eq_none_of_keys ?_
        intro kv hkv
        rw [entryPages_key hkv]
        intro heq
        exact hnd.1 (heq ▸ List.mem_map_of_mem Prod.fst he2)
      rw [hm]
      exact ih e hnd.2 he2

theorem traversal_warning_count (fileSystem : List (RelPath × FileReadOutcome))
    (pid : String) (p : RelPath) :
    ∀ mappings : List (String × RelPath), (mappings.map Prod.fst).Nodup →
      (pid, p) ∈ mappings → pathEscapes p = true →
      ((mappings.flatMap (entryWarnings fileSystem)).filter
        (fun w => decide (warningEntryId w = pid))).length = 1 := by
  intro mappings
  induction mappings with
  | nil =>
    intro _ he _
    exact absurd he (List.not_mem_nil _)
  | cons m rest ih =>
    intro hnodup he hesc
    rw [List.map_cons] at hnodup
    have hnd := List.nodup_cons.mp hnodup
    rw [List.flatMap_cons, List.filter_append, List.length_append]
    rcases List.mem_cons.mp he with heq | he2
    · have h1 : (entryWarnings fileSystem m).filter
          (fun w => decide (warningEntryId w = pid)) = [BuildWarning.traversal pid p] := by
        rcases heq.symm with rfl
        simp [entryWarnings, hesc, warningEntryId]
      have h2 : ((rest.flatMap (entryWarnings fileSystem)).filter
          (fun w => decide (warningEntryId w = pid))) = [] := by
        rw [List.filter_eq_nil_iff]
        intro w hw
        rcases List.mem_flatMap.mp hw with ⟨e2, he2, hwe⟩
        simp only [decide_eq_true_eq]
        rw [entryWarnings_key hwe]
        intro heq2
        have hpmem : e2.1 ∈ List.map Prod.fst rest := List.mem_map_of_mem Prod.fst he2
        rw [heq2] at hpmem
        rcases heq.symm with rfl
        exact hnd.1 hpmem
      rw [h1, h2]
      rfl
    · have hm : m.1 ≠ pid := by
        intro heq2
        have hpmem : pid ∈ List.map Prod.fst rest := List.mem_map_of_mem Prod.fst he2
        rw [← heq2] at hpmem
        exact hnd.1 hpmem
      have h1 : (entryWarnings fileSystem m).filter
          (fun w => decide (warningEntryId w = pid)) = [] := by
        rw [List.filter_eq_nil_iff]
        intro w hw
        rw [entryWarnings_key hw]
        simp only [decide_eq_true_eq]
        exact hm
      rw [h1, ih hnd.2 he2 hesc]
      rfl

/-- C8: a mapping entry whose relative path escapes the root via traversal
is excluded from both the `pages` map and the `pathToPageId` map; exactly
one warning naming that entry is recorded; and the build still succeeds,
registering every other entry whose path stays inside the root and whose
file parses. Mapping keys are unique, as JS record keys are. -/
theorem buildPageState_traversal_excluded (fileSystem : List (RelPath × FileReadOutcome))
    (mappings : List (String × RelPath)) (pid : String) (p : RelPath)
    (hkeys : (mappings.map Prod.fst).Nodup)
    (hmem : (pid, p) ∈ mappings) (hesc : pathEscapes p = true) :
    alookup pid (buildPageStateFromFiles fileSystem mappings).pages = none ∧
    alookup p (buildPageStateFromFiles fileSystem mappings).pathToPageId = none ∧
    ((buildPageStateFromFiles fileSystem mappings).warnings.filter
      (fun w => decide (warningEntryId w = pid))).length = 1 ∧
    ∀ e ∈ mappings, pathEscapes e.2 = false →
      ∀ fm, readFile fileSystem e.2 = FileReadOutcome.parsed fm →
        alookup e.1 (buildPageStateFromFiles fileSystem mappings).pages =
          some ⟨e.1, e.2, fm.title.getD "", fm.version.getD 1, fm.updated_at, fm.synced_at⟩ := by
  refine ⟨?_, ?_, ?_, ?_⟩
  · refine alookup_eq_none_of_keys ?_
    intro kv hkv
    rcases List.mem_flatMap.mp hkv with ⟨e2, he2, hkve⟩
    rw [entryPages_key hkve]
    intro heq
    have he2' : e2 = (pid, p) :=
      List.inj_on_of_nodup_map hkeys he2 hmem heq
    rw [he2'] at hkve
    have : entryPages fileSystem (pid, p) = [] := by
      unfold entryPages
      rw [if_pos hesc]
    rw [this] at hkve
    exact absurd hkve (List.not_mem_nil kv)
  · refine alookup_eq_none_of_keys ?_
    intro kv hkv
    rcases List.mem_flatMap.mp hkv with ⟨e2, he2, hkve⟩
    rcases entryPathIds_key hkve with ⟨hkey, hnesc⟩
    rw [hkey]
    intro heq
    rw [heq] at hnesc
    rw [hesc] at hnesc
    exact Bool.noConfusion hnesc
  · exact traversal_warning_count fileSystem pid p mappings hkeys hmem hesc
  · intro e he hnesc fm hfm
    rw [show (buildPageStateFromFiles fileSystem mappings).pages =
        mappings.flatMap (entryPages fileSystem) from rfl]
    rw [alookup_bind_entryPages fileSystem mappings e hkeys he]
    unfold entryPages
    rw [if_neg (by rw [hnesc]; exact Bool.noConfusion), hfm]
    simp [alookup]

/-- Witness for C8: mirrors the page-state test "skips paths that attempt
directory traversal" — `safe-page → safe.md` stays, and
`malicious-page → ../../../etc/passwd` is excluded with one warning. -/
theorem buildPageState_traversal_excluded_witness :
    alookup "malicious-page" (buildPageStateFromFiles
      [(["safe.md"], FileReadOutcome.parsed ⟨some "safe-page", some "Safe Page", some 1, none, none⟩)]
      [("safe-page", ["safe.md"]),
       ("malicious-page", ["..", "..", "..", "etc", "passwd"])]).pages = none ∧
    alookup ["..", "..", "..", "etc", "passwd"] (buildPageStateFromFiles
      [(["safe.md"], FileReadOutcome.parsed ⟨some "safe-page", some "Safe Page", some 1, none, none⟩)]
      [("safe-page", ["safe.md"]),
       ("malicious-page", ["..", "..", "..", "etc", "passwd"])]).pathToPageId = none ∧
    ((buildPageStateFromFiles
      [(["safe.md"], FileReadOutcome.parsed ⟨some "safe-page", some "Safe Page", some 1, none, none⟩)]
      [("safe-page", ["safe.md"]),
       ("malicious-page", ["..", "..", "..", "etc", "passwd"])]).warnings.filter
      (fun w => decide (warningEntryId w = "malicious-page"))).length = 1 ∧
    ∀ e ∈ [("safe-page", ["safe.md"]),
           ("malicious-page", ["..", "..", "..", "etc", "passwd"])],
      pathEscapes e.2 = false →
      ∀ fm, readFile
          [(["safe.md"], FileReadOutcome.parsed ⟨some "safe-page", some "Safe Page", some 1, none, none⟩)]
          e.2 = FileReadOutcome.parsed fm →
        alookup e.1 (buildPageStateFromFiles
          [(["safe.md"], FileReadOutcome.parsed ⟨some "safe-page", some "Safe Page", some 1, none, none⟩)]
          [("safe-page", ["safe.md"]),
           ("malicious-page", ["..", "..", "..", "etc", "passwd"])]).pages =
          some ⟨e.1, e.2, fm.title.getD "", fm.version.getD 1, fm.updated_at, fm.synced_at⟩ :=
  buildPageState_traversal_excluded
    [(["safe.md"], FileReadOutcome.parsed ⟨some "safe-page", some "Safe Page", some 1, none, none⟩)]
    [("safe-page", ["safe.md"]),
     ("malicious-page", ["..", "..", "..", "etc", "passwd"])]
    "malicious-page" ["..", "..", "..", "etc", "passwd"]
    (by decide) (by decide) (by decide)

/-! ## Second link-resolution pass

Embeds `resolveLinksSecondPass` and `extractUnresolvedLinks` from
`link-resolution-pass.ts`. File content is modelled at the token level: a
body is a list of segments, where `marker title linkText` stands for one
unresolved `<ac:link><ri:page ri:content-title="..."/>...</ac:link>`
element (title and link text already entity-decoded, as
`extractUnresolvedLinks` decodes them), `mdlink` for a resolved markdown
link `[linkText](path)`, and `text` for anything else. The source's
`updatedContent.replace(link.fullMatch, markdownLink)` — replace the first
occurrence of that exact element — is `replaceFirstMarker`.

The helpers `buildPageStateFromFiles`/`buildPageLookupMapFromCache`
(`page-state.ts`, `link-converter.ts`) are absent from the sources, so the
lookup map (title → mapped local path, from each mapped file's metadata)
and `confluenceLinkToRelativePath` (look the title up, then form the
relative path from the referencing file's directory) are modelled from the
spec; the pass's own control flow — skip files without markers, rewrite
each resolvable marker, write and count only when at least one link
resolved — is taken from the source.
-/

/-- One token of a document body. -/
inductive Seg where
  | text (s : String)
  | marker (title linkText : String)
  | mdlink (linkText path : String)
deriving DecidableEq, Repr

/-- Embedding of `extractUnresolvedLinks`: the unresolved-link elements of a
body, in order, as (decoded title, decoded link text). -/
def extractUnresolvedLinks : List Seg → List (String × String)
  | [] => []
  | Seg.marker t l :: rest => (t, l) :: extractUnresolvedLinks rest
  | Seg.text _ :: rest => extractUnresolvedLinks rest
  | Seg.mdlink _ _ :: rest => extractUnresolvedLinks rest

/-- Drop the longest common prefix of two segment lists. -/
def dropCommonPrefix : List String → List String → List String × List String
  | a :: as, b :: bs => if a = b then dropCommonPrefix as bs else (a :: as, b :: bs)
  | as, bs => (as, bs)

/-- Modelled from the spec: the relative path from the directory of
`fromPath` to `targetPath` (both space-root-relative, `/`-separated), as the
link converter writes it (`./page.md`, `../page.md`, ...). -/
def relativePathBetween (fromPath targetPath : String) : String :=
  let r := dropCommonPrefix ((fromPath.splitOn "/").dropLast) (targetPath.splitOn "/")
  if r.1.length = 0 then String.intercalate "/" ("." :: r.2)
  else String.intercalate "/" (List.replicate r.1.length ".." ++ r.2)

/-- Modelled from the spec: `confluenceLinkToRelativePath(title, localPath,
pageLookupMap)` from `link-converter.ts` (absent from the sources) — look
the target title up in the lookup map; when found, return the relative path
from the referencing file to the target, otherwise `none`. -/
def confluenceLinkToRelativePath (title localPath : String)
    (lookupMap : List (String × String)) : Option String :=
  (alookup title lookupMap).map (fun target => relativePathBetween localPath target)

/-- A tracked file as the pass sees it: its frontmatter title (all the
lookup map reads) and its body. -/
structure TrackedFile where
  title : String
  body : List Seg
deriving DecidableEq, Repr

/-- Modelled from the spec: `buildPageStateFromFiles` followed by
`buildPageLookupMapFromCache` — for each mapping entry whose file is
readable, map the file's title to the entry's local path. -/
def buildLookupMap (fs : List (String × TrackedFile)) :
    List (String × String) → List (String × String)
  | [] => []
  | e :: rest =>
    match alookup e.2 fs with
    | some fd => (fd.title, e.2) :: buildLookupMap fs rest
    | none => buildLookupMap fs rest

/-- `updatedContent.replace(link.fullMatch, markdownLink)`: replace the
first occurrence of the given unresolved element with the markdown link. -/
def replaceFirstMarker (t l rel : String) : List Seg → List Seg
  | [] => []
  | s :: rest =>
    if s = Seg.marker t l then Seg.mdlink l rel :: rest
    else s :: replaceFirstMarker t l rel rest

/-- The body of the source's per-link loop: attempt resolution; on success
replace that occurrence and count it, otherwise leave the content as-is. -/
def resolveLinkStep (lookupMap : List (String × String)) (localPath : String)
    (acc : List Seg × Nat) (m : String × String) : List Seg × Nat :=
  match confluenceLinkToRelativePath m.1 localPath lookupMap with
  | some rel => (replaceFirstMarker m.1 m.2 rel acc.1, acc.2 + 1)
  | none => acc

/-- `LinkResolutionResult` from `link-resolution-pass.ts`. -/
structure LinkResolutionResult where
  filesUpdated : Nat
  linksResolved : Nat
  warnings : List String
deriving DecidableEq, Repr

/-- `writeFileSync`: replace the content stored at `path`. -/
def fsWrite (fs : List (String × TrackedFile)) (path : String) (fd : TrackedFile) :
    List (String × TrackedFile) :=
  fs.map (fun e => if e.1 = path then (e.1, fd) else e)

/-- One iteration of the `for (const [_pageId, localPath] of
Object.entries(config.pages))` loop in `resolveLinksSecondPass`: unreadable
file → warning only; no unresolved links → skip; otherwise resolve each
link and, only if at least one resolved, write the updated content and
count the file. -/
def passStep (lookupMap : List (String × String))
    (acc : List (String × TrackedFile) × LinkResolutionResult) (e : String × String) :
    List (String × TrackedFile) × LinkResolutionResult :=
  match alookup e.2 acc.1 with
  | none =>
    (acc.1, { acc.2 with warnings := acc.2.warnings ++ ["Could not read " ++ e.2] })
  | some fd =>
    if extractUnresolvedLinks fd.body = [] then acc
    else if 0 < ((extractUnresolvedLinks fd.body).foldl
        (resolveLinkStep lookupMap e.2) (fd.body, 0)).2 then
      (fsWrite acc.1 e.2
        { fd with body := ((extractUnresolvedLinks fd.body).foldl
            (resolveLinkStep lookupMap e.2) (fd.body, 0)).1 },
       { acc.2 with
          filesUpdated := acc.2.filesUpdated + 1
          linksResolved := acc.2.linksResolved + ((extractUnresolvedLinks fd.body).foldl
            (resolveLinkStep lookupMap e.2) (fd.body, 0)).2 })
    else acc

/-- Embedding of `resolveLinksSecondPass(directory, config)`: rebuild the
lookup map from the current files and the mapping, then process every
mapped file in order; returns the final file system and the result. -/
def resolveLinksSecondPass (fs : List (String × TrackedFile))
    (pages : List (String × String)) :
    (List (String × TrackedFile)) × LinkResolutionResult :=
  pages.foldl (passStep (buildLookupMap fs pages)) (fs, ⟨0, 0, []⟩)

/-- What one body token becomes after the per-file loop: a resolvable
marker turns into the markdown link, everything else is untouched. -/
def resolveSeg (lookupMap : List (String × String)) (localPath : String) : Seg → Seg
  | Seg.marker t l =>
    match confluenceLinkToRelativePath t localPath lookupMap with
    | some rel => Seg.mdlink l rel
    | none => Seg.marker t l
  | Seg.text s => Seg.text s
  | Seg.mdlink l p => Seg.mdlink l p

/-- How many of a body's unresolved links the lookup map can resolve. -/
def countResolvable (lookupMap : List (String × String)) (localPath : String)
    (b : List Seg) : Nat :=
  ((extractUnresolvedLinks b).filter
    (fun m => (confluenceLinkToRelativePath m.1 localPath lookupMap).isSome)).length

theorem resolveLinkStep_some {lookupMap : List (String × String)} {localPath : String}
    {m : String × String} {rel : String}
    (hr : confluenceLinkToRelativePath m.1 localPath lookupMap = some rel)
    (b : List Seg) (n : Nat) :
    resolveLinkStep lookupMap localPath (b, n) m =
      (replaceFirstMarker m.1 m.2 rel b, n + 1) := by
  unfold resolveLinkStep
  rw [hr]

theorem resolveLinkStep_none {lookupMap : List (String × String)} {localPath : String}
    {m : String × String}
    (hr : confluenceLinkToRelativePath m.1 localPath lookupMap = none)
    (b : List Seg) (n : Nat) :
    resolveLinkStep lookupMap localPath (b, n) m = (b, n) := by
  unfold resolveLinkStep
  rw [hr]

theorem replaceFirstMarker_cons_ne (t l rel : String) (s : Seg) (X : List Seg)
    (hs : ¬(s = Seg.marker t l)) :
    replaceFirstMarker t l rel (s :: X) = s :: replaceFirstMarker t l rel X := by
  rw [show replaceFirstMarker t l rel (s :: X) =
      if s = Seg.marker t l then Seg.mdlink l rel :: X
      else s :: replaceFirstMarker t l rel X from rfl]
  rw [if_neg hs]

theorem replaceFirstMarker_cons_eq (t l rel : String) (X : List Seg) :
    replaceFirstMarker t l rel (Seg.marker t l :: X) = Seg.mdlink l rel :: X := by
  rw [show replaceFirstMarker t l rel (Seg.marker t l :: X) =
      if Seg.marker t l = Seg.marker t l then Seg.mdlink l rel :: X
      else Seg.marker t l :: replaceFirstMarker t l rel X from rfl]
  rw [if_pos rfl]

theorem foldl_resolveLinkStep_cons (lookupMap : List (String × String)) (localPath : String)
    (s : Seg) (ms : List (String × String))
    (h : ∀ m ∈ ms, s = Seg.marker m.1 m.2 →
      confluenceLinkToRelativePath m.1 localPath lookupMap = none) :
    ∀ (X : List Seg) (n : Nat),
      ms.foldl (resolveLinkStep lookupMap localPath) (s :: X, n) =
        ((ms.foldl (resolveLinkStep lookupMap localPath) (X, n)).1.cons s,
         (ms.foldl (resolveLinkStep lookupMap localPath) (X, n)).2) := by
  induction ms with
  | nil =>
    intro X n
    rfl
  | cons m ms ih =>
    intro X n
    rw [List.foldl_cons, List.foldl_cons]
    cases hr : confluenceLinkToRelativePath m.1 localPath lookupMap with
    | none =>
      rw [resolveLinkStep_none hr (s :: X) n, resolveLinkStep_none hr X n]
      exact ih (fun m2 hm2 => h m2 (List.mem_cons.mpr (Or.inr hm2))) X n
    | some rel =>
      have hs : ¬(s = Seg.marker m.1 m.2) := by
        intro heq
        rw [h m (List.mem_cons_self _ _) heq] at hr
        exact Option.noConfusion hr
      rw [resolveLinkStep_some hr (s :: X) n, resolveLinkStep_some hr X n,
        replaceFirstMarker_cons_ne m.1 m.2 rel s X hs]
      exact ih (fun m2 hm2 => h m2 (List.mem_cons.mpr (Or.inr hm2)))
        (replaceFirstMarker m.1 m.2 rel X) (n + 1)

theorem foldl_resolveLinkStep_eq_map (lookupMap : List (String × String)) (localPath : String) :
    ∀ (b : List Seg) (n : Nat),
      (extractUnresolvedLinks b).foldl (resolveLinkStep lookupMap localPath) (b, n) =
        (b.map (resolveSeg lookupMap localPath),
         n + countResolvable lookupMap localPath b) := by
  intro b
  induction b with
  | nil =>
    intro n
    simp [extractUnresolvedLinks, countResolvable]
  | cons s rest ih =>
    intro n
    cases s with
    | text str =>
      rw [show extractUnresolvedLinks (Seg.text str :: rest) =
          extractUnresolvedLinks rest from rfl]
      rw [foldl_resolveLinkStep_cons lookupMap localPath (Seg.text str)
        (extractUnresolvedLinks rest) (fun m _ heq => Seg.noConfusion heq) rest n]
      rw [ih n]
      rw [show countResolvable lookupMap localPath (Seg.text str :: rest) =
          countResolvable lookupMap localPath rest from rfl]
      rfl
    | mdlink l p =>
      rw [show extractUnresolvedLinks (Seg.mdlink l p :: rest) =
          extractUnresolvedLinks rest from rfl]
      rw [foldl_resolveLinkStep_cons lookupMap localPath (Seg.mdlink l p)
        (extractUnresolvedLinks rest) (fun m _ heq => Seg.noConfusion heq) rest n]
      rw [ih n]
      rw [show countResolvable lookupMap localPath (Seg.mdlink l p :: rest) =
          countResolvable lookupMap localPath rest from rfl]
      rfl
    | marker t l =>
      rw [show extractUnresolvedLinks (Seg.marker t l :: rest) =
          (t, l) :: extractUnresolvedLinks rest from rfl]
      rw [List.foldl_cons]
      cases hr : confluenceLinkToRelativePath t localPath lookupMap with
      | some rel =>
        rw [show resolveLinkStep lookupMap localPath (Seg.marker t l :: rest, n) (t, l) =
            (replaceFirstMarker t l rel (Seg.marker t l :: rest), n + 1) from
          resolveLinkStep_some hr (Seg.marker t l :: rest) n]
        rw [replaceFirstMarker_cons_eq t l rel rest]
        rw [foldl_resolveLinkStep_cons lookupMap localPath (Seg.mdlink l rel)
          (extractUnresolvedLinks rest) (fun m _ heq => Seg.noConfusion heq) rest (n + 1)]
        rw [ih (n + 1)]
        have hmap : (Seg.marker t l :: rest).map (resolveSeg lookupMap localPath) =
            Seg.mdlink l rel :: rest.map (resolveSeg lookupMap localPath) := by
          rw [List.map_cons]
          rw [show resolveSeg lookupMap localPath (Seg.marker t l) = Seg.mdlink l rel by
            show (match confluenceLinkToRelativePath t localPath lookupMap with
              | some rel => Seg.mdlink l rel
              | none => Seg.marker t l) = Seg.mdlink l rel
            rw [hr]]
        have hcount : countResolvable lookupMap localPath (Seg.marker t l :: rest) =
            1 + countResolvable lookupMap localPath rest := by
          unfold countResolvable
          rw [show extractUnresolvedLinks (Seg.marker t l :: rest) =
              (t, l) :: extractUnresolvedLinks rest from rfl]
          rw [List.filter_cons]
          rw [show ((confluenceLinkToRelativePath ((t, l) : String × String).1
              localPath lookupMap).isSome : Bool) = true by rw [hr]; rfl]
          simp [Nat.add_comm]
        rw [hmap, hcount]
        rw [show n + 1 + countResolvable lookupMap localPath rest =
            n + (1 + countResolvable lookupMap localPath rest) by omega]
      | none =>
        rw [resolveLinkStep_none hr (Seg.marker t l :: rest) n]
        rw [foldl_resolveLinkStep_cons lookupMap localPath (Seg.marker t l)
          (extractUnresolvedLinks rest)
          (fun m hm heq => by
            have ht : m.1 = t := by
              cases heq
              rfl
            rw [ht]
            exact hr)
          rest n]
        rw [ih n]
        have hmap : (Seg.marker t l :: rest).map (resolveSeg lookupMap localPath) =
            Seg.marker t l :: rest.map (resolveSeg lookupMap localPath) := by
          rw [List.map_cons]
          rw [show resolveSeg lookupMap localPath (Seg.marker t l) = Seg.marker t l by
            show (match confluenceLinkToRelativePath t localPath lookupMap with
              | some rel => Seg.mdlink l rel
              | none => Seg.marker t l) = Seg.marker t l
            rw [hr]]
        have hcount : countResolvable lookupMap localPath (Seg.marker t l :: rest) =
            countResolvable lookupMap localPath rest := by
          unfold countResolvable
          rw [show extractUnresolvedLinks (Seg.marker t l :: rest) =
              (t, l) :: extractUnresolvedLinks rest from rfl]
          rw [List.filter_cons]
          rw [show ((confluenceLinkToRelativePath ((t, l) : String × String).1
              localPath lookupMap).isSome : Bool) = false by rw [hr]; rfl]
          simp
        rw [hmap, hcount]

theorem extract_map_resolveSeg (lookupMap : List (String × String)) (localPath : String)
    (b : List Seg) :
    extractUnresolvedLinks (b.map (resolveSeg lookupMap localPath)) =
      (extractUnresolvedLinks b).filter
        (fun m => (confluenceLinkToRelativePath m.1 localPath lookupMap).isNone) := by
  induction b with
  | nil => rfl
  | cons s rest ih =>
    cases s with
    | text str =>
      rw [List.map_cons]
      rw [show resolveSeg lookupMap localPath (Seg.text str) = Seg.text str from rfl]
      exact ih
    | mdlink l p =>
      rw [List.map_cons]
      rw [show resolveSeg lookupMap localPath (Seg.mdlink l p) = Seg.mdlink l p from rfl]
      exact ih
    | marker t l =>
      rw [List.map_cons]
      rw [show extractUnresolvedLinks (Seg.marker t l :: rest) =
          (t, l) :: extractUnresolvedLinks rest from rfl]
      rw [List.filter_cons]
      cases hr : confluenceLinkToRelativePath t localPath lookupMap with
      | some rel =>
        rw [show resolveSeg lookupMap localPath (Seg.marker t l) = Seg.mdlink l rel by
          show (match confluenceLinkToRelativePath t localPath lookupMap with
            | some rel => Seg.mdlink l rel
            | none => Seg.marker t l) = Seg.mdlink l rel
          rw [hr]]
        rw [if_neg (by simp)]
        rw [show extractUnresolvedLinks
            (Seg.mdlink l rel :: rest.map (resolveSeg lookupMap localPath)) =
            extractUnresolvedLinks (rest.map (resolveSeg lookupMap localPath)) from rfl]
        exact ih
      | none =>
        rw [show resolveSeg lookupMap localPath (Seg.marker t l) = Seg.marker t l by
          show (match confluenceLinkToRelativePath t localPath lookupMap with
            | some rel => Seg.mdlink l rel
            | none => Seg.marker t l) = Seg.marker t l
          rw [hr]]
        rw [if_pos (by simp)]
        rw [show extractUnresolvedLinks
            (Seg.marker t l :: rest.map (resolveSeg lookupMap localPath)) =
            (t, l) :: extractUnresolvedLinks (rest.map (resolveSeg lookupMap localPath))
          from rfl]
        rw [ih]

theorem settled_map_body (lookupMap : List (String × String)) (localPath : String)
    (b : List Seg) :
    ∀ m ∈ extractUnresolvedLinks (b.map (resolveSeg lookupMap localPath)),
      confluenceLinkToRelativePath m.1 localPath lookupMap = none := by
  intro m hm
  rw [extract_map_resolveSeg] at hm
  have := (List.mem_filter.mp hm).2
  exact Option.isNone_iff_eq_none.mp this

theorem countResolvable_eq_zero_iff (lookupMap : List (String × String)) (localPath : String)
    (b : List Seg) :
    countResolvable lookupMap localPath b = 0 ↔
      ∀ m ∈ extractUnresolvedLinks b,
        confluenceLinkToRelativePath m.1 localPath lookupMap = none := by
  unfold countResolvable
  rw [List.length_eq_zero]
  rw [List.filter_eq_nil_iff]
  constructor
  · intro h m hm
    have := h m hm
    simpa [Option.isNone_iff_eq_none] using Option.not_isSome_iff_eq_none.mp (by simpa using this)
  · intro h m hm
    simp [h m hm]

theorem extract_ne_nil_of_map_ne_nil {lookupMap : List (String × String)} {localPath : String}
    {b : List Seg}
    (h : extractUnresolvedLinks (b.map (resolveSeg lookupMap localPath)) ≠ []) :
    extractUnresolvedLinks b ≠ [] := by
  intro hnil
  refine h ?_
  rw [extract_map_resolveSeg, hnil]
  rfl

theorem passStep_read_none {lookupMap : List (String × String)}
    {acc : List (String × TrackedFile) × LinkResolutionResult} {e : String × String}
    (h : alookup e.2 acc.1 = none) :
    passStep lookupMap acc e =
      (acc.1, { acc.2 with warnings := acc.2.warnings ++ ["Could not read " ++ e.2] }) := by
  unfold passStep
  rw [h]

theorem passStep_no_markers {lookupMap : List (String × String)}
    {acc : List (String × TrackedFile) × LinkResolutionResult} {e : String × String}
    {fd : TrackedFile}
    (h : alookup e.2 acc.1 = some fd)
    (hm : extractUnresolvedLinks fd.body = []) :
    passStep lookupMap acc e = acc := by
  unfold passStep
  rw [h]
  dsimp only
  rw [if_pos hm]

theorem passStep_no_write {lookupMap : List (String × String)}
    {acc : List (String × TrackedFile) × LinkResolutionResult} {e : String × String}
    {fd : TrackedFile}
    (h : alookup e.2 acc.1 = some fd)
    (hc : countResolvable lookupMap e.2 fd.body = 0) :
    passStep lookupMap acc e = acc := by
  unfold passStep
  rw [h]
  dsimp only
  split_ifs with hm hpos
  · rfl
  · exfalso
    rw [foldl_resolveLinkStep_eq_map] at hpos
    rw [hc] at hpos
    simp at hpos
  · rfl

theorem passStep_write {lookupMap : List (String × String)}
    {acc : List (String × TrackedFile) × LinkResolutionResult} {e : String × String}
    {fd : TrackedFile}
    (h : alookup e.2 acc.1 = some fd)
    (hc : 0 < countResolvable lookupMap e.2 fd.body) :
    passStep lookupMap acc e =
      (fsWrite acc.1 e.2 { fd with body := fd.body.map (resolveSeg lookupMap e.2) },
       { acc.2 with
          filesUpdated := acc.2.filesUpdated + 1
          linksResolved := acc.2.linksResolved + countResolvable lookupMap e.2 fd.body }) := by
  unfold passStep
  rw [h]
  dsimp only
  have hm : ¬(extractUnresolvedLinks fd.body = []) := by
    intro hnil
    unfold countResolvable at hc
    rw [hnil] at hc
    simp at hc
  rw [if_neg hm]
  rw [foldl_resolveLinkStep_eq_map]
  rw [if_pos (by simpa using hc)]
  simp

theorem alookup_fsWrite (fs : List (String × TrackedFile)) (p q : String) (fd : TrackedFile) :
    alookup q (fsWrite fs p fd) =
      if q = p then (alookup p fs).map (fun _ => fd) else alookup q fs := by
  induction fs with
  | nil =>
    show (none : Option TrackedFile) =
      if q = p then Option.map (fun _ => fd) none else none
    split_ifs <;> rfl
  | cons kv rest ih =>
    by_cases hkp : kv.1 = p <;> by_cases hkq : kv.1 = q <;> by_cases hqp : q = p <;>
      simp_all [fsWrite, alookup]

/-- The title the lookup-map builder reads at a path, when the file exists. -/
def titleAt (fs : List (String × TrackedFile)) (q : String) : Option String :=
  (alookup q fs).map TrackedFile.title

theorem titleAt_passStep (lookupMap : List (String × String))
    (acc : List (String × TrackedFile) × LinkResolutionResult) (e : String × String)
    (q : String) :
    titleAt (passStep lookupMap acc e).1 q = titleAt acc.1 q := by
  cases hread : alookup e.2 acc.1 with
  | none =>
    rw [passStep_read_none hread]
  | some fd =>
    by_cases hm : extractUnresolvedLinks fd.body = []
    · rw [passStep_no_markers hread hm]
    · by_cases hc : countResolvable lookupMap e.2 fd.body = 0
      · rw [passStep_no_write hread hc]
      · rw [passStep_write hread (Nat.pos_of_ne_zero hc)]
        unfold titleAt
        rw [show (fsWrite acc.1 e.2
            { fd with body := fd.body.map (resolveSeg lookupMap e.2) },
            { acc.2 with
              filesUpdated := acc.2.filesUpdated + 1
              linksResolved := acc.2.linksResolved +
                countResolvable lookupMap e.2 fd.body }).1 =
          fsWrite acc.1 e.2
            { fd with body := fd.body.map (resolveSeg lookupMap e.2) } from rfl]
        rw [alookup_fsWrite]
        split_ifs with hq
        · rw [hq, hread]
          rfl
        · rfl

theorem titleAt_pass_go (lookupMap : List (String × String)) :
    ∀ (ps : List (String × String)) (acc : List (String × TrackedFile) × LinkResolutionResult)
      (q : String),
      titleAt (ps.foldl (passStep lookupMap) acc).1 q = titleAt acc.1 q := by
  intro ps
  induction ps with
  | nil =>
    intro acc q
    rfl
  | cons e ps ih =>
    intro acc q
    rw [List.foldl_cons, ih, titleAt_passStep]

theorem buildLookupMap_congr {fs1 fs2 : List (String × TrackedFile)}
    (h : ∀ q, titleAt fs1 q = titleAt fs2 q) :
    ∀ pages : List (String × String), buildLookupMap fs1 pages = buildLookupMap fs2 pages := by
  intro pages
  induction pages with
  | nil => rfl
  | cons e rest ih =>
    have he := h e.2
    unfold titleAt at he
    show (match alookup e.2 fs1 with
      | some fd => (fd.title, e.2) :: buildLookupMap fs1 rest
      | none => buildLookupMap fs1 rest) =
      (match alookup e.2 fs2 with
      | some fd => (fd.title, e.2) :: buildLookupMap fs2 rest
      | none => buildLookupMap fs2 rest)
    cases h1 : alookup e.2 fs1 with
    | none =>
      cases h2 : alookup e.2 fs2 with
      | none => exact ih
      | some fd2 =>
        rw [h1, h2] at he
        exact absurd he.symm (by simp)
    | some fd1 =>
      cases h2 : alookup e.2 fs2 with
      | none =>
        rw [h1, h2] at he
        exact absurd he (by simp)
      | some fd2 =>
        rw [h1, h2] at he
        have : fd1.title = fd2.title := by
          simpa using he
        dsimp only
        rw [this, ih]

/-- A file (when present) whose every unresolved link the lookup map cannot
resolve: the second pass will not touch it. -/
def Settled (lookupMap : List (String × String)) (fs : List (String × TrackedFile))
    (p : String) : Prop :=
  ∀ fd, alookup p fs = some fd →
    ∀ m ∈ extractUnresolvedLinks fd.body,
      confluenceLinkToRelativePath m.1 p lookupMap = none

theorem settled_passStep (lookupMap : List (String × String))
    (acc : List (String × TrackedFile) × LinkResolutionResult) (e : String × String)
    (q : String) (h : Settled lookupMap acc.1 q) :
    Settled lookupMap (passStep lookupMap acc e).1 q := by
  cases hread : alookup e.2 acc.1 with
  | none =>
    rw [passStep_read_none hread]
    exact h
  | some fd =>
    by_cases hm : extractUnresolvedLinks fd.body = []
    · rw [passStep_no_markers hread hm]
      exact h
    · by_cases hc : countResolvable lookupMap e.2 fd.body = 0
      · rw [passStep_no_write hread hc]
        exact h
      · rw [passStep_write hread (Nat.pos_of_ne_zero hc)]
        intro fd2 hfd2 m hmm
        rw [show (fsWrite acc.1 e.2
            { fd with body := fd.body.map (resolveSeg lookupMap e.2) },
            { acc.2 with
              filesUpdated := acc.2.filesUpdated + 1
              linksResolved := acc.2.linksResolved +
                countResolvable lookupMap e.2 fd.body }).1 =
          fsWrite acc.1 e.2
            { fd with body := fd.body.map (resolveSeg lookupMap e.2) } from rfl] at hfd2
        rw [alookup_fsWrite] at hfd2
        split_ifs at hfd2 with hq
        · subst hq
          rw [hread] at hfd2
          cases Option.some.inj hfd2
          exact settled_map_body lookupMap e.2 fd.body m hmm
        · exact h fd2 hfd2 m hmm

theorem settled_after_own_step (lookupMap : List (String × String))
    (acc : List (String × TrackedFile) × LinkResolutionResult) (e : String × String) :
    Settled lookupMap (passStep lookupMap acc e).1 e.2 := by
  cases hread : alookup e.2 acc.1 with
  | none =>
    rw [passStep_read_none hread]
    intro fd hfd
    rw [show (acc.1, { acc.2 with
        warnings := acc.2.warnings ++ ["Could not read " ++ e.2] }).1 = acc.1 from rfl] at hfd
    rw [hread] at hfd
    exact absurd hfd (by simp)
  | some fd =>
    by_cases hm : extractUnresolvedLinks fd.body = []
    · rw [passStep_no_markers hread hm]
      intro fd2 hfd2 m hmm
      rw [hread] at hfd2
      cases Option.some.inj hfd2
      rw [hm] at hmm
      exact absurd hmm (List.not_mem_nil m)
    · by_cases hc : countResolvable lookupMap e.2 fd.body = 0
      · rw [passStep_no_write hread hc]
        intro fd2 hfd2 m hmm
        rw [hread] at hfd2
        cases Option.some.inj hfd2
        exact (countResolvable_eq_zero_iff lookupMap e.2 fd.body).mp hc m hmm
      · rw [passStep_write hread (Nat.pos_of_ne_zero hc)]
        intro fd2 hfd2 m hmm
        rw [show (fsWrite acc.1 e.2
            { fd with body := fd.body.map (resolveSeg lookupMap e.2) },
            { acc.2 with
              filesUpdated := acc.2.filesUpdated + 1
              linksResolved := acc.2.linksResolved +
                countResolvable lookupMap e.2 fd.body }).1 =
          fsWrite acc.1 e.2
            { fd with body := fd.body.map (resolveSeg lookupMap e.2) } from rfl] at hfd2
        rw [alookup_fsWrite] at hfd2
        rw [if_pos rfl, hread] at hfd2
        cases Option.some.inj hfd2
        exact settled_map_body lookupMap e.2 fd.body m hmm

theorem pass_go_preserves_settled (lookupMap : List (String × String)) :
    ∀ (ps : List (String × String)) (acc : List (String × TrackedFile) × LinkResolutionResult)
      (q : String), Settled lookupMap acc.1 q →
      Settled lookupMap (ps.foldl (passStep lookupMap) acc).1 q := by
  intro ps
  induction ps with
  | nil =>
    intro acc q h
    exact h
  | cons e ps ih =>
    intro acc q h
    rw [List.foldl_cons]
    exact ih (passStep lookupMap acc e) q (settled_passStep lookupMap acc e q h)

theorem pass_go_establishes_settled (lookupMap : List (String × String)) :
    ∀ (ps : List (String × String)) (acc : List (String × TrackedFile) × LinkResolutionResult),
      ∀ e ∈ ps, Settled lookupMap (ps.foldl (passStep lookupMap) acc).1 e.2 := by
  intro ps
  induction ps with
  | nil =>
    intro acc e he
    exact absurd he (List.not_mem_nil e)
  | cons e0 ps ih =>
    intro acc e he
    rw [List.foldl_cons]
    rcases List.mem_cons.mp he with rfl | he2
    · exact pass_go_preserves_settled lookupMap ps (passStep lookupMap acc e) e.2
        (settled_after_own_step lookupMap acc e)
    · exact ih (passStep lookupMap acc e0) e he2

theorem pass_go_zero (lookupMap : List (String × String)) :
    ∀ (ps : List (String × String)) (fs : List (String × TrackedFile))
      (res : LinkResolutionResult),
      (∀ e ∈ ps, Settled lookupMap fs e.2) →
      (ps.foldl (passStep lookupMap) (fs, res)).1 = fs ∧
      (ps.foldl (passStep lookupMap) (fs, res)).2.filesUpdated = res.filesUpdated ∧
      (ps.foldl (passStep lookupMap) (fs, res)).2.linksResolved = res.linksResolved := by
  intro ps
  induction ps with
  | nil =>
    intro fs res _
    exact ⟨rfl, rfl, rfl⟩
  | cons e ps ih =>
    intro fs res h
    rw [List.foldl_cons]
    have htail : ∀ e2 ∈ ps, Settled lookupMap fs e2.2 :=
      fun e2 he2 => h e2 (List.mem_cons.mpr (Or.inr he2))
    cases hread : alookup e.2 fs with
    | none =>
      rw [passStep_read_none hread]
      exact ih fs { res with warnings := res.warnings ++ ["Could not read " ++ e.2] } htail
    | some fd =>
      by_cases hm : extractUnresolvedLinks fd.body = []
      · rw [passStep_no_markers hread hm]
        exact ih fs res htail
      · have hc : countResolvable lookupMap e.2 fd.body = 0 :=
          (countResolvable_eq_zero_iff lookupMap e.2 fd.body).mpr
            (h e (List.mem_cons_self _ _) fd hread)
        rw [passStep_no_write hread hc]
        exact ih fs res htail

/-- C6: the second link-resolution pass is idempotent — running it again
immediately after a first run, with the same mapping and no intervening
changes, resolves zero additional links, updates zero files, and leaves
every file byte-for-byte as the first run left it. -/
theorem resolveLinksSecondPass_idempotent (fs : List (String × TrackedFile))
    (pages : List (String × String)) :
    (resolveLinksSecondPass (resolveLinksSecondPass fs pages).1 pages).2.filesUpdated = 0 ∧
    (resolveLinksSecondPass (resolveLinksSecondPass fs pages).1 pages).2.linksResolved = 0 ∧
    (resolveLinksSecondPass (resolveLinksSecondPass fs pages).1 pages).1 =
      (resolveLinksSecondPass fs pages).1 := by
  have htitles : ∀ q, titleAt (resolveLinksSecondPass fs pages).1 q = titleAt fs q :=
    fun q => titleAt_pass_go (buildLookupMap fs pages) pages (fs, ⟨0, 0, []⟩) q
  have hmap : buildLookupMap (resolveLinksSecondPass fs pages).1 pages =
      buildLookupMap fs pages :=
    buildLookupMap_congr htitles pages
  have hsettled : ∀ e ∈ pages,
      Settled (buildLookupMap fs pages) (resolveLinksSecondPass fs pages).1 e.2 :=
    pass_go_establishes_settled (buildLookupMap fs pages) pages (fs, ⟨0, 0, []⟩)
  have hrun2 : resolveLinksSecondPass (resolveLinksSecondPass fs pages).1 pages =
      pages.foldl (passStep (buildLookupMap fs pages))
        ((resolveLinksSecondPass fs pages).1, ⟨0, 0, []⟩) := by
    unfold resolveLinksSecondPass
    rw [show buildLookupMap (pages.foldl (passStep (buildLookupMap fs pages))
        (fs, ⟨0, 0, []⟩)).1 pages = buildLookupMap fs pages from hmap]
  rw [hrun2]
  have hzero := pass_go_zero (buildLookupMap fs pages) pages
    (resolveLinksSecondPass fs pages).1 ⟨0, 0, []⟩ hsettled
  exact ⟨hzero.2.1, hzero.2.2, hzero.1⟩

/-- Whether the file mapped at `p` (in the pre-pass file system) contains at
least one unresolved-link marker. -/
def hasUnresolvedAt (fs : List (String × TrackedFile)) (p : String) : Bool :=
  match alookup p fs with
  | some fd => !(extractUnresolvedLinks fd.body).isEmpty
  | none => false

theorem passStep_preserves_clean (lookupMap : List (String × String))
    (acc : List (String × TrackedFile) × LinkResolutionResult) (e : String × String)
    {p : String} {fd : TrackedFile}
    (hread : alookup p acc.1 = some fd)
    (hclean : extractUnresolvedLinks fd.body = []) :
    alookup p (passStep lookupMap acc e).1 = some fd := by
  cases hr : alookup e.2 acc.1 with
  | none =>
    rw [passStep_read_none hr]
    exact hread
  | some fd2 =>
    by_cases hm : extractUnresolvedLinks fd2.body = []
    · rw [passStep_no_markers hr hm]
      exact hread
    · by_cases hc : countResolvable lookupMap e.2 fd2.body = 0
      · rw [passStep_no_write hr hc]
        exact hread
      · rw [passStep_write hr (Nat.pos_of_ne_zero hc)]
        rw [show (fsWrite acc.1 e.2
            { fd2 with body := fd2.body.map (resolveSeg lookupMap e.2) },
            { acc.2 with
              filesUpdated := acc.2.filesUpdated + 1
              linksResolved := acc.2.linksResolved +
                countResolvable lookupMap e.2 fd2.body }).1 =
          fsWrite acc.1 e.2
            { fd2 with body := fd2.body.map (resolveSeg lookupMap e.2) } from rfl]
        rw [alookup_fsWrite]
        split_ifs with hq
        · exfalso
          subst hq
          rw [hread] at hr
          cases Option.some.inj hr
          exact hm hclean
        · exact hread

theorem pass_go_preserves_clean (lookupMap : List (String × String)) :
    ∀ (ps : List (String × String)) (acc : List (String × TrackedFile) × LinkResolutionResult)
      {p : String} {fd : TrackedFile},
      alookup p acc.1 = some fd → extractUnresolvedLinks fd.body = [] →
      alookup p (ps.foldl (passStep lookupMap) acc).1 = some fd := by
  intro ps
  induction ps with
  | nil =>
    intro acc p fd hread _
    exact hread
  | cons e ps ih =>
    intro acc p fd hread hclean
    rw [List.foldl_cons]
    exact ih (passStep lookupMap acc e)
      (passStep_preserves_clean lookupMap acc e hread hclean) hclean

/-- Each file present now was present initially, and can only carry an
unresolved marker if its initial content already carried one. -/
def markImp (fs0 fscur : List (String × TrackedFile)) : Prop :=
  ∀ q fd, alookup q fscur = some fd →
    ∃ fd0, alookup q fs0 = some fd0 ∧
      (extractUnresolvedLinks fd.body ≠ [] → extractUnresolvedLinks fd0.body ≠ [])

theorem markImp_passStep (lookupMap : List (String × String))
    (fs0 : List (String × TrackedFile))
    (acc : List (String × TrackedFile) × LinkResolutionResult) (e : String × String)
    (h : markImp fs0 acc.1) : markImp fs0 (passStep lookupMap acc e).1 := by
  cases hr : alookup e.2 acc.1 with
  | none =>
    rw [passStep_read_none hr]
    exact h
  | some fd2 =>
    by_cases hm : extractUnresolvedLinks fd2.body = []
    · rw [passStep_no_markers hr hm]
      exact h
    · by_cases hc : countResolvable lookupMap e.2 fd2.body = 0
      · rw [passStep_no_write hr hc]
        exact h
      · rw [passStep_write hr (Nat.pos_of_ne_zero hc)]
        intro q fd hfd
        rw [show (fsWrite acc.1 e.2
            { fd2 with body := fd2.body.map (resolveSeg lookupMap e.2) },
            { acc.2 with
              filesUpdated := acc.2.filesUpdated + 1
              linksResolved := acc.2.linksResolved +
                countResolvable lookupMap e.2 fd2.body }).1 =
          fsWrite acc.1 e.2
            { fd2 with body := fd2.body.map (resolveSeg lookupMap e.2) } from rfl] at hfd
        rw [alookup_fsWrite] at hfd
        split_ifs at hfd with hq
        · subst hq
          rw [hr] at hfd
          cases Option.some.inj hfd
          rcases h e.2 fd2 hr with ⟨fd0, hfd0, himp⟩
          exact ⟨fd0, hfd0, fun hne => himp (extract_ne_nil_of_map_ne_nil hne)⟩
        · exact h q fd hfd

theorem passStep_filesUpdated_le (lookupMap : List (String × String))
    (fs0 : List (String × TrackedFile))
    (acc : List (String × TrackedFile) × LinkResolutionResult) (e : String × String)
    (hmark : markImp fs0 acc.1) :
    (passStep lookupMap acc e).2.filesUpdated ≤
      acc.2.filesUpdated + (if hasUnresolvedAt fs0 e.2 then 1 else 0) := by
  cases hr : alookup e.2 acc.1 with
  | none =>
    rw [passStep_read_none hr]
    exact Nat.le_add_right _ _
  | some fd2 =>
    by_cases hm : extractUnresolvedLinks fd2.body = []
    · rw [passStep_no_markers hr hm]
      exact Nat.le_add_right _ _
    · by_cases hc : countResolvable lookupMap e.2 fd2.body = 0
      · rw [passStep_no_write hr hc]
        exact Nat.le_add_right _ _
      · rw [passStep_write hr (Nat.pos_of_ne_zero hc)]
        rcases hmark e.2 fd2 hr with ⟨fd0, hfd0, himp⟩
        have htrue : hasUnresolvedAt fs0 e.2 = true := by
          unfold hasUnresolvedAt
          rw [hfd0]
          have := himp hm
          simpa [List.isEmpty_iff] using this
        rw [htrue]
        exact Nat.le_refl _

theorem pass_go_filesUpdated_bound (lookupMap : List (String × String))
    (fs0 : List (String × TrackedFile)) :
    ∀ (ps : List (String × String)) (acc : List (String × TrackedFile) × LinkResolutionResult),
      markImp fs0 acc.1 →
      (ps.foldl (passStep lookupMap) acc).2.filesUpdated ≤
        acc.2.filesUpdated + (ps.filter (fun e => hasUnresolvedAt fs0 e.2)).length := by
  intro ps
  induction ps with
  | nil =>
    intro acc _
    simp
  | cons e ps ih =>
    intro acc hmark
    rw [List.foldl_cons, List.filter_cons]
    have hstep := passStep_filesUpdated_le lookupMap fs0 acc e hmark
    have hrest := ih (passStep lookupMap acc e) (markImp_passStep lookupMap fs0 acc e hmark)
    by_cases hp : hasUnresolvedAt fs0 e.2
    · rw [if_pos hp]
      rw [if_pos hp] at hstep
      rw [List.length_cons]
      omega
    · rw [if_neg hp]
      rw [if_neg hp] at hstep
      omega

theorem markImp_refl (fs : List (String × TrackedFile)) : markImp fs fs :=
  fun _ fd h => ⟨fd, h, fun hne => hne⟩

/-- C9: a tracked document whose content contains no unresolved-link marker
is never rewritten by the second pass — the pass leaves its stored content
exactly as it was — and the pass's `filesUpdated` count never exceeds the
number of mapping entries whose file contains at least one unresolved
marker, so second-pass write I/O is proportional to the number of dangling
links, not to the total document count. -/
theorem resolveLinksSecondPass_frame (fs : List (String × TrackedFile))
    (pages : List (String × String)) (p : String) (fd : TrackedFile)
    (hread : alookup p fs = some fd)
    (hclean : extractUnresolvedLinks fd.body = []) :
    alookup p (resolveLinksSecondPass fs pages).1 = some fd ∧
    (resolveLinksSecondPass fs pages).2.filesUpdated ≤
      (pages.filter (fun e => hasUnresolvedAt fs e.2)).length := by
  constructor
  · exact pass_go_preserves_clean (buildLookupMap fs pages) pages (fs, ⟨0, 0, []⟩)
      hread hclean
  · have := pass_go_filesUpdated_bound (buildLookupMap fs pages) fs pages (fs, ⟨0, 0, []⟩)
      (markImp_refl fs)
    simpa using this

/-- Witness for C9: a single tracked file with no markers is left untouched
and nothing is counted as updated. -/
theorem resolveLinksSecondPass_frame_witness :
    alookup "a.md" (resolveLinksSecondPass [("a.md", ⟨"A", [Seg.text "hello"]⟩)]
      [("id-a", "a.md")]).1 = some ⟨"A", [Seg.text "hello"]⟩ ∧
    (resolveLinksSecondPass [("a.md", ⟨"A", [Seg.text "hello"]⟩)]
      [("id-a", "a.md")]).2.filesUpdated ≤
      ([("id-a", "a.md")].filter
        (fun e => hasUnresolvedAt [("a.md", ⟨"A", [Seg.text "hello"]⟩)] e.2)).length :=
  resolveLinksSecondPass_frame [("a.md", ⟨"A", [Seg.text "hello"]⟩)] [("id-a", "a.md")]
    "a.md" ⟨"A", [Seg.text "hello"]⟩ (by decide) (by decide)
